import Mathlib

/-!
Verification development for the noexcept_benchmark repository.

The repository contains two driver translation units (noexcept_benchmark_main.cpp
and the unnamed part_000) plus a shared header (the unnamed part_001,
noexcept_benchmark.h).  The definitions below are shallow embeddings of the
result-aggregation structures, the verdict printers, the ratio helper
divide_by_positive, the timing formula of profile_func_call, the guard
throw_exception_if, and the wrap-around recursion recursive_func.
Durations (C++ double values) are modelled as exact rationals; where a claim
hinges on IEEE binary64 overflow, a separate model with round-to-nearest-even
and an infinity value is used.
-/

/-- The constant max_number_of_times from noexcept_benchmark_main.cpp line 56:
the number of trials each test case of that driver runs. -/
def max_number_of_times : ℕ := 4

/-- The default value of the macro NOEXCEPT_BENCHMARK_NUMBER_OF_ITERATIONS from
noexcept_benchmark.h (part_001 lines 39-41). -/
def NOEXCEPT_BENCHMARK_NUMBER_OF_ITERATIONS : ℕ := 10

/-- The constant number_of_iterations from part_000 line 105: the number of
trials each test case of that driver runs. -/
def number_of_iterations : ℕ := NOEXCEPT_BENCHMARK_NUMBER_OF_ITERATIONS

/-- The struct durations_type from part_000 lines 107-111: a pair of
measured durations, one per exception-specification variant.  Doubles are
modelled as exact rationals. -/
structure durations_type where
  duration_noexcept : ℚ
  duration_implicit : ℚ

deriving instance DecidableEq for durations_type

/-- std::numeric_limits of double, denorm_min: the smallest representable
positive binary64 value, 2 to the power -1074. -/
def denorm_min : ℚ := 1 / 2 ^ 1074

/-- divide_by_positive from noexcept_benchmark_main.cpp lines 117-121 and
part_000 lines 114-118, with the arithmetic taken exactly over the rationals:
x divided by y when y is positive, otherwise x divided by denorm_min.
(The IEEE-overflow-aware model of the same source function is
divide_by_positive_ieee below.) -/
def divide_by_positive (x y : ℚ) : ℚ := x / (if 0 < y then y else denorm_min)

/-- The struct test_result from noexcept_benchmark_main.cpp lines 69-75
(the variant without running minimums). -/
structure test_result_main where
  number_of_times_noexcept_is_faster : ℕ
  number_of_times_implicit_is_faster : ℕ
  sum_of_durations_noexcept : ℚ
  sum_of_durations_implicit : ℚ

deriving instance DecidableEq for test_result_main

/-- The default-initialised test_result of noexcept_benchmark_main.cpp:
all counters and sums are zero. -/
def test_result_main_init : test_result_main := ⟨0, 0, 0, 0⟩

/-- update_test_result from noexcept_benchmark_main.cpp lines 102-115:
adds both durations to the running sums and increments the counter of the
strictly faster variant (a tie increments neither). -/
def update_test_result_main (result : test_result_main) (durations : durations_type) :
    test_result_main :=
  { sum_of_durations_noexcept :=
      result.sum_of_durations_noexcept + durations.duration_noexcept
    sum_of_durations_implicit :=
      result.sum_of_durations_implicit + durations.duration_implicit
    number_of_times_noexcept_is_faster :=
      if durations.duration_noexcept < durations.duration_implicit then
        result.number_of_times_noexcept_is_faster + 1
      else
        result.number_of_times_noexcept_is_faster
    number_of_times_implicit_is_faster :=
      if durations.duration_implicit < durations.duration_noexcept then
        result.number_of_times_implicit_is_faster + 1
      else
        result.number_of_times_implicit_is_faster }

/-- The three possible conclusions printed by print_conclusion of
noexcept_benchmark_main.cpp: noexcept declared faster with a ratio, the
implicit variant declared faster with a ratio, or unclear. -/
inductive conclusion_type where
  | noexcept_faster : ℚ → conclusion_type
  | implicit_faster : ℚ → conclusion_type
  | unclear : conclusion_type

deriving instance DecidableEq for conclusion_type

/-- print_conclusion from noexcept_benchmark_main.cpp lines 124-147:
noexcept is declared faster when its counter equals max_number_of_times, with
ratio sum_implicit / sum_noexcept; otherwise the implicit variant is declared
faster when its counter equals max_number_of_times, with the inverse ratio;
otherwise the conclusion is unclear. -/
def print_conclusion (result : test_result_main) : conclusion_type :=
  if result.number_of_times_noexcept_is_faster = max_number_of_times then
    conclusion_type.noexcept_faster
      (divide_by_positive result.sum_of_durations_implicit result.sum_of_durations_noexcept)
  else if result.number_of_times_implicit_is_faster = max_number_of_times then
    conclusion_type.implicit_faster
      (divide_by_positive result.sum_of_durations_noexcept result.sum_of_durations_implicit)
  else conclusion_type.unclear

/-- The class template test_result of part_000 lines 120-187 (the variant
that also tracks the shortest duration seen per variant).  The shortest
durations are initialised to infinity in the source; the model uses none
for that sentinel and some d once a duration has been recorded. -/
structure test_result_tmpl where
  number_of_times_noexcept_is_faster : ℕ
  number_of_times_implicit_is_faster : ℕ
  sum_of_durations_noexcept : ℚ
  sum_of_durations_implicit : ℚ
  shortest_duration_noexcept : Option ℚ
  shortest_duration_implicit : Option ℚ

deriving instance DecidableEq for test_result_tmpl

/-- The member initialisers of test_result of part_000: zero counters, zero
sums, shortest durations at the infinity sentinel. -/
def test_result_tmpl_init : test_result_tmpl := ⟨0, 0, 0, 0, none, none⟩

/-- std::min against a running minimum whose initial value is the
infinity sentinel (modelled as none). -/
def omin : Option ℚ → ℚ → Option ℚ
  | none, d => some d
  | some c, d => some (min c d)

/-- test_result member update_test_result from part_000 lines 142-158:
adds both durations to the running sums, lowers the running minimums, and
increments the counter of the strictly faster variant (a tie increments
neither). -/
def update_test_result (result : test_result_tmpl) (durations : durations_type) :
    test_result_tmpl :=
  { sum_of_durations_noexcept :=
      result.sum_of_durations_noexcept + durations.duration_noexcept
    sum_of_durations_implicit :=
      result.sum_of_durations_implicit + durations.duration_implicit
    shortest_duration_noexcept :=
      omin result.shortest_duration_noexcept durations.duration_noexcept
    shortest_duration_implicit :=
      omin result.shortest_duration_implicit durations.duration_implicit
    number_of_times_noexcept_is_faster :=
      if durations.duration_noexcept < durations.duration_implicit then
        result.number_of_times_noexcept_is_faster + 1
      else
        result.number_of_times_noexcept_is_faster
    number_of_times_implicit_is_faster :=
      if durations.duration_implicit < durations.duration_noexcept then
        result.number_of_times_implicit_is_faster + 1
      else
        result.number_of_times_implicit_is_faster }

/-- The information content of the summary printed by the test_result
destructor of part_000 lines 160-186: the two ratios (both always printed)
and the three conditional verdict messages. -/
structure dtor_report where
  ratio_noexcept_over_implicit : ℚ
  ratio_implicit_over_noexcept : ℚ
  msg_noexcept_always : Bool
  msg_implicit_always : Bool
  msg_neither_always : Bool

deriving instance DecidableEq for dtor_report

/-- The test_result destructor of part_000 lines 160-186: prints both ratio
lines unconditionally; prints the noexcept-always-faster message exactly when
the implicit counter is zero, the implicit-always-faster message exactly when
the noexcept counter is zero, and the neither-message exactly when both
counters are positive. -/
def test_result_dtor (result : test_result_tmpl) : dtor_report :=
  { ratio_noexcept_over_implicit :=
      divide_by_positive result.sum_of_durations_noexcept result.sum_of_durations_implicit
    ratio_implicit_over_noexcept :=
      divide_by_positive result.sum_of_durations_implicit result.sum_of_durations_noexcept
    msg_noexcept_always := result.number_of_times_implicit_is_faster == 0
    msg_implicit_always := result.number_of_times_noexcept_is_faster == 0
    msg_neither_always :=
      (result.number_of_times_noexcept_is_faster != 0)
        && (result.number_of_times_implicit_is_faster != 0) }

/-- Feeding a sequence of trial duration pairs to a fresh part_000
accumulator, as the driver loop of part_000 does once per iteration. -/
def runTrials (trials : List durations_type) : test_result_tmpl :=
  trials.foldl update_test_result test_result_tmpl_init

/-- Feeding a sequence of trial duration pairs to a fresh
noexcept_benchmark_main.cpp accumulator, as its driver loop does once per
iteration. -/
def runTrialsMain (trials : List durations_type) : test_result_main :=
  trials.foldl update_test_result_main test_result_main_init

/-- The lifecycle events of one Named Test Case: construction of the
test_result (which prints the header), one trial recording per driver loop
iteration, and the destructor run at scope exit (which prints the summary). -/
inductive event_type where
  | init : event_type
  | record : durations_type → event_type
  | finalize : event_type

deriving instance DecidableEq for event_type

/-- The event trace of one test-case block of either driver translation
unit: the block constructs the test_result, its loop records one trial per
iteration, and the destructor finalises on scope exit. -/
def testCaseTrace (trials : List durations_type) : List event_type :=
  event_type.init :: (trials.map event_type.record ++ [event_type.finalize])

/-- Recognises a trial-recording event. -/
def isRecord : event_type → Bool
  | event_type.record _ => true
  | _ => false

/-- Recognises the finalisation event. -/
def isFinalize : event_type → Bool
  | event_type.finalize => true
  | _ => false

/-- The number of trial recordings in a trace. -/
def countRecords (trace : List event_type) : ℕ := trace.countP isRecord

/-- One test-case block of noexcept_benchmark_main.cpp: its loop runs
max_number_of_times iterations, the i-th measuring the duration pair d i. -/
def main_driver_trace (d : ℕ → durations_type) : List event_type :=
  testCaseTrace ((List.range max_number_of_times).map d)

/-- One test-case block of part_000: its loop runs number_of_iterations
iterations, the i-th measuring the duration pair d i. -/
def tmpl_driver_trace (d : ℕ → durations_type) : List event_type :=
  testCaseTrace ((List.range number_of_iterations).map d)

/-- The constant cpu_frequency from noexcept_benchmark.h (part_001 line 86),
in cycles per second. -/
def cpu_frequency : ℚ := 3612059050

/-- The constant loopsize from noexcept_benchmark.h (part_001 line 88): the
number of executions of the code under test per sample. -/
def loopsize : ℕ := 1000

/-- The constant minimum_of from noexcept_benchmark.h (part_001 line 89): the
number of samples taken, of which all but the fastest are thrown away. -/
def minimum_of : ℕ := 3

/-- Modelled from the spec: benchmark Stopwatch member measure, from
cwds/benchmark.h, which is not part of this repository's sources.  Per the
spec it takes minof samples, each sample the elapsed cycle count of loopsize
executions of the callable, and keeps the smallest sample.  The i-th sample
value is sample i. -/
def stopwatch_measure (sample : ℕ → ℚ) (minof : ℕ) : ℚ :=
  ((List.range minof).map sample).foldl min (sample 0)

/-- profile_func_call from noexcept_benchmark.h (part_001 lines 112-134):
measures with minimum_of samples of loopsize executions each, then converts
the resulting cycle count to nanoseconds per single invocation by dividing by
cpu_frequency, multiplying by one billion, and dividing by loopsize. -/
def profile_func_call (sample : ℕ → ℚ) : ℚ :=
  stopwatch_measure sample minimum_of / cpu_frequency * 1000000000 / (loopsize : ℚ)

/-- The observable outcome of a call of throw_exception_if: either a normal
return, or the raising path (the assertion failure in debug builds followed,
when NOEXCEPT_BENCHMARK_THROW_EXCEPTION is set, by throwing std::exception). -/
inductive outcome_type where
  | normal_return : outcome_type
  | raised : outcome_type

deriving instance DecidableEq for outcome_type

/-- throw_exception_if from noexcept_benchmark.h (part_001 lines 92-101):
when called with true it enters the assertion-failure-and-throw branch,
otherwise it returns normally and has no effect. -/
def throw_exception_if (do_throw_exception : Bool) : outcome_type :=
  if do_throw_exception then outcome_type.raised else outcome_type.normal_return

/-- recursive_func from part_000 lines 44-51 and 93-100: the parameter is an
unsigned short, pre-decremented (modulo 2 to the 16th) before being compared
with zero; while the decremented value is positive a dummy object is
constructed and the function recurses.  The model counts the total number of
invocations and of dummy constructions, with a fuel argument bounding the
recursion depth (none when the fuel runs out). -/
def recursive_func : ℕ → ℕ → Option (ℕ × ℕ)
  | 0, _ => none
  | fuel + 1, number_of_func_calls =>
      let decremented := (number_of_func_calls + (2 ^ 16 - 1)) % 2 ^ 16
      if 0 < decremented then
        match recursive_func fuel decremented with
        | none => none
        | some (calls, dummies) => some (calls + 1, dummies + 1)
      else some (1, 0)

/-- A binary64 value as far as the claims need it: a finite value (kept as
the exact rational it denotes) or positive infinity. -/
inductive double_val where
  | fin : ℚ → double_val
  | posInf : double_val

deriving instance DecidableEq for double_val

/-- The smallest magnitude at which IEEE binary64 round-to-nearest-even
rounds to infinity: 2 to the 1024th minus 2 to the 970th (the midpoint
between the largest finite double and the next power of two). -/
def overflow_threshold : ℚ := 2 ^ 1024 - 2 ^ 970

/-- Round a rational to the nearest integer, ties to even. -/
def rne (q : ℚ) : ℤ :=
  if q - ⌊q⌋ < 1 / 2 then ⌊q⌋
  else if 1 / 2 < q - ⌊q⌋ then ⌊q⌋ + 1
  else if ⌊q⌋ % 2 = 0 then ⌊q⌋ else ⌊q⌋ + 1

/-- The floor of the base-2 logarithm of a positive rational. -/
def ilog2 (q : ℚ) : ℤ :=
  if 1 ≤ q then (Nat.log 2 ⌊q⌋.toNat : ℤ) else -(Nat.clog 2 ⌈q⁻¹⌉.toNat : ℤ)

/-- Round a nonnegative rational below the overflow threshold to the IEEE
binary64 grid with round-to-nearest-even: the unit in the last place has
exponent ilog2 q - 52, floored at -1074 for subnormals. -/
def roundBinary64 (q : ℚ) : ℚ :=
  if q ≤ 0 then 0
  else
    (rne (q / 2 ^ (max (ilog2 q) (-1022) - 52)) : ℚ) * 2 ^ (max (ilog2 q) (-1022) - 52)

/-- IEEE binary64 division of a nonnegative finite double by a positive
finite double under round-to-nearest-even: the exact quotient is rounded to
the binary64 grid, overflowing to positive infinity exactly when it reaches
the overflow threshold. -/
def fdiv_pos (x y : ℚ) : double_val :=
  if overflow_threshold ≤ x / y then double_val.posInf
  else double_val.fin (roundBinary64 (x / y))

/-- divide_by_positive from noexcept_benchmark_main.cpp lines 117-121 and
part_000 lines 114-118, modelled with IEEE binary64 division (the sources
divide C++ doubles): x divided by y when y is positive, otherwise x divided
by denorm_min, the quotient rounded to binary64. -/
def divide_by_positive_ieee (x y : ℚ) : double_val :=
  fdiv_pos x (if 0 < y then y else denorm_min)

/-- A counter that is conditionally incremented grows by one exactly when the
condition holds and is unchanged exactly when it fails. -/
theorem counter_incr_iff (c : ℕ) (p : Prop) [Decidable p] :
    ((if p then c + 1 else c) = c + 1 ↔ p) ∧ ((if p then c + 1 else c) = c ↔ ¬ p) := by
  split_ifs with h <;> simp [h]

/-- Both faster-counters are left unchanged exactly when the two durations
tie. -/
theorem tie_iff (a b : ℕ) (x y : ℚ) :
    ((if x < y then a + 1 else a) = a ∧ (if y < x then b + 1 else b) = b) ↔ x = y := by
  rcases lt_trichotomy x y with h | h | h
  · simp [h, lt_asymm h, ne_of_lt h]
  · subst h
    simp
  · simp [h, lt_asymm h, (ne_of_lt h).symm]

/-- C3: For every pair of recorded durations, update_test_result (in both
translation units) increments the noexcept-faster counter exactly when the
noexcept duration is strictly smaller, increments the implicit-faster counter
exactly when the implicit duration is strictly smaller, leaves both counters
unchanged exactly on a tie, adds both durations to their running sums, and
(in part_000, where minimums are tracked) lowers the running minimums. -/
theorem c3_record_trial_updates :
  ∀ (r : test_result_tmpl) (rm : test_result_main) (d : durations_type),
    ((update_test_result r d).number_of_times_noexcept_is_faster
        = r.number_of_times_noexcept_is_faster + 1 ↔
      d.duration_noexcept < d.duration_implicit) ∧
    ((update_test_result r d).number_of_times_noexcept_is_faster
        = r.number_of_times_noexcept_is_faster ↔
      ¬ d.duration_noexcept < d.duration_implicit) ∧
    ((update_test_result r d).number_of_times_implicit_is_faster
        = r.number_of_times_implicit_is_faster + 1 ↔
      d.duration_implicit < d.duration_noexcept) ∧
    ((update_test_result r d).number_of_times_implicit_is_faster
        = r.number_of_times_implicit_is_faster ↔
      ¬ d.duration_implicit < d.duration_noexcept) ∧
    ((update_test_result r d).number_of_times_noexcept_is_faster
          = r.number_of_times_noexcept_is_faster ∧
        (update_test_result r d).number_of_times_implicit_is_faster
          = r.number_of_times_implicit_is_faster ↔
      d.duration_noexcept = d.duration_implicit) ∧
    (update_test_result r d).sum_of_durations_noexcept
      = r.sum_of_durations_noexcept + d.duration_noexcept ∧
    (update_test_result r d).sum_of_durations_implicit
      = r.sum_of_durations_implicit + d.duration_implicit ∧
    (update_test_result r d).shortest_duration_noexcept
      = omin r.shortest_duration_noexcept d.duration_noexcept ∧
    (update_test_result r d).shortest_duration_implicit
      = omin r.shortest_duration_implicit d.duration_implicit ∧
    ((update_test_result_main rm d).number_of_times_noexcept_is_faster
        = rm.number_of_times_noexcept_is_faster + 1 ↔
      d.duration_noexcept < d.duration_implicit) ∧
    ((update_test_result_main rm d).number_of_times_implicit_is_faster
        = rm.number_of_times_implicit_is_faster + 1 ↔
      d.duration_implicit < d.duration_noexcept) ∧
    ((update_test_result_main rm d).number_of_times_noexcept_is_faster
          = rm.number_of_times_noexcept_is_faster ∧
        (update_test_result_main rm d).number_of_times_implicit_is_faster
          = rm.number_of_times_implicit_is_faster ↔
      d.duration_noexcept = d.duration_implicit) ∧
    (update_test_result_main rm d).sum_of_durations_noexcept
      = rm.sum_of_durations_noexcept + d.duration_noexcept ∧
    (update_test_result_main rm d).sum_of_durations_implicit
      = rm.sum_of_durations_implicit + d.duration_implicit := by
  intro r rm d
  refine ⟨?_, ?_, ?_, ?_, ?_, ?_, ?_, ?_, ?_, ?_, ?_, ?_, ?_, ?_⟩ <;>
    simp only [update_test_result, update_test_result_main] <;>
    first
      | exact (counter_incr_iff _ _).1
      | exact (counter_incr_iff _ _).2
      | exact tie_iff _ _ _ _

/-- One update increases the sum of the two faster-counters by at most one
(part_000 variant). -/
theorem update_counts_le (r : test_result_tmpl) (d : durations_type) :
    (update_test_result r d).number_of_times_noexcept_is_faster
      + (update_test_result r d).number_of_times_implicit_is_faster
      ≤ r.number_of_times_noexcept_is_faster
        + r.number_of_times_implicit_is_faster + 1 := by
  simp only [update_test_result]
  split_ifs with h1 h2 h2
  · exact absurd (lt_trans h1 h2) (lt_irrefl _)
  · omega
  · omega
  · omega

/-- One update increases the sum of the two faster-counters by at most one
(noexcept_benchmark_main.cpp variant). -/
theorem update_counts_le_main (r : test_result_main) (d : durations_type) :
    (update_test_result_main r d).number_of_times_noexcept_is_faster
      + (update_test_result_main r d).number_of_times_implicit_is_faster
      ≤ r.number_of_times_noexcept_is_faster
        + r.number_of_times_implicit_is_faster + 1 := by
  simp only [update_test_result_main]
  split_ifs with h1 h2 h2
  · exact absurd (lt_trans h1 h2) (lt_irrefl _)
  · omega
  · omega
  · omega

/-- Folding updates over a trial list grows the counter sum by at most the
list length (part_000 variant). -/
theorem foldl_counts_le (ds : List durations_type) :
    ∀ r : test_result_tmpl,
      (ds.foldl update_test_result r).number_of_times_noexcept_is_faster
        + (ds.foldl update_test_result r).number_of_times_implicit_is_faster
        ≤ r.number_of_times_noexcept_is_faster
          + r.number_of_times_implicit_is_faster + ds.length := by
  induction ds with
  | nil => intro r; simp
  | cons d ds ih =>
      intro r
      have h1 := ih (update_test_result r d)
      have h2 := update_counts_le r d
      simp only [List.foldl_cons, List.length_cons]
      omega

/-- Folding updates over a trial list grows the counter sum by at most the
list length (noexcept_benchmark_main.cpp variant). -/
theorem foldl_counts_le_main (ds : List durations_type) :
    ∀ r : test_result_main,
      (ds.foldl update_test_result_main r).number_of_times_noexcept_is_faster
        + (ds.foldl update_test_result_main r).number_of_times_implicit_is_faster
        ≤ r.number_of_times_noexcept_is_faster
          + r.number_of_times_implicit_is_faster + ds.length := by
  induction ds with
  | nil => intro r; simp
  | cons d ds ih =>
      intro r
      have h1 := ih (update_test_result_main r d)
      have h2 := update_counts_le_main r d
      simp only [List.foldl_cons, List.length_cons]
      omega

/-- The trace of a test case contains one record event per trial of the
driver loop. -/
theorem countRecords_testCaseTrace (ds : List durations_type) :
    countRecords (testCaseTrace ds) = ds.length := by
  simp [countRecords, testCaseTrace, isRecord, List.countP_cons, List.countP_append,
    List.countP_map, Function.comp]

/-- C4: After any sequence of update_test_result calls on a fresh
accumulator, the noexcept-faster counter plus the implicit-faster counter is
at most the number of trials, and the number of trials recorded equals the
number of record calls the driver loop made (both accumulator variants). -/
theorem c4_aggregate_invariant :
  ∀ ds : List durations_type,
    (runTrials ds).number_of_times_noexcept_is_faster
      + (runTrials ds).number_of_times_implicit_is_faster ≤ ds.length ∧
    (runTrialsMain ds).number_of_times_noexcept_is_faster
      + (runTrialsMain ds).number_of_times_implicit_is_faster ≤ ds.length ∧
    countRecords (testCaseTrace ds) = ds.length := by
  intro ds
  refine ⟨?_, ?_, countRecords_testCaseTrace ds⟩
  · have h := foldl_counts_le ds test_result_tmpl_init
    simpa [runTrials, test_result_tmpl_init] using h
  · have h := foldl_counts_le_main ds test_result_main_init
    simpa [runTrialsMain, test_result_main_init] using h

/-- C9: throw_exception_if called with false returns normally without
raising; the assertion-failure-and-throw branch is taken exactly when the
argument is true. -/
theorem c9_throw_exception_if_safe :
  throw_exception_if false = outcome_type.normal_return ∧
  ∀ b : Bool, (throw_exception_if b = outcome_type.raised ↔ b = true) := by
  constructor
  · rfl
  · intro b
    cases b <;> simp [throw_exception_if]

/-- C2 counterexample: after the single tied trial (1, 1), the part_000
destructor prints the noexcept-always-faster declaration although the
noexcept-faster counter (0) does not equal the number of trials run (1), and
it prints the implicit-always-faster declaration at the same time, so the
three verdicts are not mutually exclusive. -/
theorem c2_counterexample :
    (test_result_dtor (runTrials [⟨1, 1⟩])).msg_noexcept_always = true ∧
    (runTrials [⟨1, 1⟩]).number_of_times_noexcept_is_faster ≠ 1 ∧
    (test_result_dtor (runTrials [⟨1, 1⟩])).msg_implicit_always = true := by
  refine ⟨by decide, by decide, by decide⟩

/-- C2 (amended): print_conclusion of noexcept_benchmark_main.cpp declares
noexcept faster iff its counter equals max_number_of_times, with ratio
sum_implicit / sum_noexcept; declares implicit faster iff the noexcept
counter differs from max_number_of_times and the implicit counter equals it,
with the inverse ratio; and is unclear otherwise — so for any sequence of
max_number_of_times recorded trials, each variant is declared faster exactly
when its counter equals the trial count.  The part_000 destructor instead
declares noexcept always-faster iff the implicit counter is zero and
implicit always-faster iff the noexcept counter is zero (the neither-message
appearing iff both counters are positive), which is not an iff against the
trial count and can produce two declarations at once. -/
theorem c2_verdict_characterization :
    (∀ (r : test_result_main) (q : ℚ),
      (print_conclusion r = conclusion_type.noexcept_faster q ↔
        r.number_of_times_noexcept_is_faster = max_number_of_times ∧
          q = divide_by_positive r.sum_of_durations_implicit r.sum_of_durations_noexcept) ∧
      (print_conclusion r = conclusion_type.implicit_faster q ↔
        r.number_of_times_noexcept_is_faster ≠ max_number_of_times ∧
          r.number_of_times_implicit_is_faster = max_number_of_times ∧
          q = divide_by_positive r.sum_of_durations_noexcept r.sum_of_durations_implicit) ∧
      (print_conclusion r = conclusion_type.unclear ↔
        r.number_of_times_noexcept_is_faster ≠ max_number_of_times ∧
          r.number_of_times_implicit_is_faster ≠ max_number_of_times)) ∧
    (∀ s : test_result_tmpl,
      ((test_result_dtor s).msg_noexcept_always = true ↔
        s.number_of_times_implicit_is_faster = 0) ∧
      ((test_result_dtor s).msg_implicit_always = true ↔
        s.number_of_times_noexcept_is_faster = 0) ∧
      ((test_result_dtor s).msg_neither_always = true ↔
        s.number_of_times_noexcept_is_faster ≠ 0 ∧
          s.number_of_times_implicit_is_faster ≠ 0)) ∧
    (∀ ds : List durations_type, ds.length = max_number_of_times →
      ((∃ q, print_conclusion (runTrialsMain ds) = conclusion_type.noexcept_faster q) ↔
        (runTrialsMain ds).number_of_times_noexcept_is_faster = ds.length) ∧
      ((∃ q, print_conclusion (runTrialsMain ds) = conclusion_type.implicit_faster q) ↔
        (runTrialsMain ds).number_of_times_implicit_is_faster = ds.length)) := by
  have hmain : ∀ (r : test_result_main) (q : ℚ),
      (print_conclusion r = conclusion_type.noexcept_faster q ↔
        r.number_of_times_noexcept_is_faster = max_number_of_times ∧
          q = divide_by_positive r.sum_of_durations_implicit r.sum_of_durations_noexcept) ∧
      (print_conclusion r = conclusion_type.implicit_faster q ↔
        r.number_of_times_noexcept_is_faster ≠ max_number_of_times ∧
          r.number_of_times_implicit_is_faster = max_number_of_times ∧
          q = divide_by_positive r.sum_of_durations_noexcept r.sum_of_durations_implicit) ∧
      (print_conclusion r = conclusion_type.unclear ↔
        r.number_of_times_noexcept_is_faster ≠ max_number_of_times ∧
          r.number_of_times_implicit_is_faster ≠ max_number_of_times) := by
    intro r q
    unfold print_conclusion
    split_ifs with h1 h2
    · simp [h1, eq_comm]
    · simp [h1, h2, eq_comm]
    · simp [h1, h2]
  refine ⟨hmain, ?_, ?_⟩
  · intro s
    simp [test_result_dtor, beq_iff_eq, Bool.and_eq_true, bne_iff_ne, ne_eq]
  · intro ds h
    have hinv := foldl_counts_le_main ds test_result_main_init
    simp only [test_result_main_init] at hinv
    constructor
    · constructor
      · rintro ⟨q, hq⟩
        have h1 := ((hmain (runTrialsMain ds) q).1.mp hq).1
        rw [h]
        exact h1
      · intro h1
        refine ⟨divide_by_positive (runTrialsMain ds).sum_of_durations_implicit
          (runTrialsMain ds).sum_of_durations_noexcept, ?_⟩
        exact (hmain (runTrialsMain ds) _).1.mpr ⟨h ▸ h1, rfl⟩
    · constructor
      · rintro ⟨q, hq⟩
        have h2 := ((hmain (runTrialsMain ds) q).2.1.mp hq).2.1
        rw [h]
        exact h2
      · intro h2
        have hle : (runTrialsMain ds).number_of_times_noexcept_is_faster
            + (runTrialsMain ds).number_of_times_implicit_is_faster ≤ ds.length := by
          simpa [runTrialsMain] using hinv
        have hpos : 0 < max_number_of_times := by decide
        have hne : (runTrialsMain ds).number_of_times_noexcept_is_faster
            ≠ max_number_of_times := by
          rw [h] at hle
          omega
        refine ⟨divide_by_positive (runTrialsMain ds).sum_of_durations_noexcept
          (runTrialsMain ds).sum_of_durations_implicit, ?_⟩
        exact (hmain (runTrialsMain ds) _).2.1.mpr ⟨hne, h ▸ h2, rfl⟩

/-- C2 witness: the verdict characterisation applied to a concrete 4-trial
sequence in which noexcept wins every trial. -/
theorem c2_verdict_characterization_witness :
    (∃ q, print_conclusion (runTrialsMain [⟨1, 2⟩, ⟨1, 2⟩, ⟨1, 2⟩, ⟨1, 2⟩])
      = conclusion_type.noexcept_faster q) :=
  ((c2_verdict_characterization.2.2 [⟨1, 2⟩, ⟨1, 2⟩, ⟨1, 2⟩, ⟨1, 2⟩] rfl).1).mpr (by decide)

/-- C6 counterexample: print_conclusion of noexcept_benchmark_main.cpp
compares the noexcept-faster counter with max_number_of_times = 4, so the
3-trial sequence (5,7), (4,6), (3,9) — all of which noexcept wins — is
reported unclear there, not declared noexcept-faster. -/
theorem c6_counterexample :
    print_conclusion (runTrialsMain [⟨5, 7⟩, ⟨4, 6⟩, ⟨3, 9⟩])
      = conclusion_type.unclear := by
  decide

/-- C6 (amended): feeding the trials (5,7), (4,6), (3,9) to a fresh part_000
accumulator makes noexcept win all 3 trials (counters 3 and 0, sums 12 and
22); its destructor declares noexcept always-faster (and neither other
message) with ratio implicit over noexcept equal to 22/12; the
print_conclusion finaliser of noexcept_benchmark_main.cpp, however, requires
the counter to equal max_number_of_times = 4 and so reports these three
trials as unclear. -/
theorem c6_scenario :
    (runTrials [⟨5, 7⟩, ⟨4, 6⟩, ⟨3, 9⟩]).number_of_times_noexcept_is_faster = 3 ∧
    (runTrials [⟨5, 7⟩, ⟨4, 6⟩, ⟨3, 9⟩]).number_of_times_implicit_is_faster = 0 ∧
    (runTrials [⟨5, 7⟩, ⟨4, 6⟩, ⟨3, 9⟩]).sum_of_durations_noexcept = 12 ∧
    (runTrials [⟨5, 7⟩, ⟨4, 6⟩, ⟨3, 9⟩]).sum_of_durations_implicit = 22 ∧
    (test_result_dtor (runTrials [⟨5, 7⟩, ⟨4, 6⟩, ⟨3, 9⟩])).msg_noexcept_always = true ∧
    (test_result_dtor (runTrials [⟨5, 7⟩, ⟨4, 6⟩, ⟨3, 9⟩])).msg_implicit_always = false ∧
    (test_result_dtor (runTrials [⟨5, 7⟩, ⟨4, 6⟩, ⟨3, 9⟩])).msg_neither_always = false ∧
    (test_result_dtor (runTrials [⟨5, 7⟩, ⟨4, 6⟩, ⟨3, 9⟩])).ratio_implicit_over_noexcept
      = 22 / 12 ∧
    print_conclusion (runTrialsMain [⟨5, 7⟩, ⟨4, 6⟩, ⟨3, 9⟩])
      = conclusion_type.unclear := by
  refine ⟨?_, ?_, ?_, ?_, ?_, ?_, ?_, ?_, ?_⟩ <;>
    norm_num [runTrials, runTrialsMain, update_test_result, update_test_result_main,
      test_result_tmpl_init, test_result_main_init, omin, test_result_dtor,
      divide_by_positive, print_conclusion, max_number_of_times]

/-- C7: Each test case of the noexcept_benchmark_main.cpp driver records
exactly max_number_of_times = 4 trials; each test case of the part_000 driver
records exactly number_of_iterations trials, which equals the
NOEXCEPT_BENCHMARK_NUMBER_OF_ITERATIONS default of 10; both counts lie
between 4 and 10 inclusive. -/
theorem c7_trials_per_test_case :
    (∀ d : ℕ → durations_type, countRecords (main_driver_trace d) = max_number_of_times) ∧
    (∀ d : ℕ → durations_type, countRecords (tmpl_driver_trace d) = number_of_iterations) ∧
    max_number_of_times = 4 ∧
    number_of_iterations = NOEXCEPT_BENCHMARK_NUMBER_OF_ITERATIONS ∧
    NOEXCEPT_BENCHMARK_NUMBER_OF_ITERATIONS = 10 ∧
    4 ≤ max_number_of_times ∧ max_number_of_times ≤ 10 ∧
    4 ≤ number_of_iterations ∧ number_of_iterations ≤ 10 := by
  refine ⟨?_, ?_, rfl, rfl, rfl, by decide, by decide, by decide, by decide⟩
  · intro d
    simp [main_driver_trace, countRecords_testCaseTrace]
  · intro d
    simp [tmpl_driver_trace, countRecords_testCaseTrace]

/-- In a list of the form a ++ [x] with x not occurring in a, nothing can
follow an occurrence of x. -/
theorem no_tail_after_unique_last {α : Type} (a : List α) (x : α) (hx : x ∉ a) :
    ∀ l₁ l₂ : List α, a ++ [x] = l₁ ++ x :: l₂ → l₂ = [] := by
  intro l₁ l₂ h
  rcases l₂.eq_nil_or_concat with h2 | h2
  · exact h2
  · rcases h2 with ⟨t, y, rfl⟩
    exfalso
    have h3 : a ++ [x] = (l₁ ++ x :: t) ++ [y] := by
      rw [h]
      simp
    have h4 := List.append_inj' h3 rfl
    rcases h4 with ⟨ha, -⟩
    exact hx (ha ▸ List.mem_append_right _ (List.mem_cons_self _ _))

/-- C8: The lifecycle trace of a Named Test Case starts with the
initialisation event, contains exactly one finalisation event, ends with it
(finalisation happens on scope exit), and nothing — in particular no trial
recording — follows the finalisation event. -/
theorem c8_test_case_lifecycle :
  ∀ ds : List durations_type,
    (testCaseTrace ds).head? = some event_type.init ∧
    (testCaseTrace ds).countP isFinalize = 1 ∧
    (testCaseTrace ds).getLast? = some event_type.finalize ∧
    (∀ l₁ l₂ : List event_type,
      testCaseTrace ds = l₁ ++ event_type.finalize :: l₂ → l₂ = []) := by
  intro ds
  refine ⟨rfl, ?_, ?_, ?_⟩
  · simp [testCaseTrace, isFinalize, List.countP_cons, List.countP_append,
      List.countP_map, Function.comp]
  · show ((event_type.init :: ds.map event_type.record)
      ++ [event_type.finalize]).getLast? = some event_type.finalize
    exact List.getLast?_concat _
  · intro l₁ l₂ h
    have hx : event_type.finalize ∉ event_type.init :: ds.map event_type.record := by
      simp [List.mem_map]
    refine no_tail_after_unique_last _ _ hx l₁ l₂ ?_
    rw [← h, testCaseTrace, List.cons_append]

/-- C8 witness: the lifecycle theorem applied to the one-trial trace, with
the decomposition around the finalisation event given explicitly. -/
theorem c8_test_case_lifecycle_witness :
    (testCaseTrace [⟨1, 2⟩]).countP isFinalize = 1 ∧ ([] : List event_type) = [] :=
  ⟨(c8_test_case_lifecycle [⟨1, 2⟩]).2.1,
   (c8_test_case_lifecycle [⟨1, 2⟩]).2.2.2
     [event_type.init, event_type.record ⟨1, 2⟩] [] rfl⟩

/-- C5: profile_func_call measures with minimum_of = 3 samples of
loopsize = 1000 executions each, keeps the smallest of the three samples, and
returns that cycle count divided by cpu_frequency, multiplied by one billion
(conversion to nanoseconds), divided by the loop size; so for ideal samples
that each cost loopsize times c cycles — c cycles per invocation — the result
is c / cpu_frequency * 1e9, the estimated nanoseconds per single invocation
of the work. -/
theorem c5_profile_func_call :
    loopsize = 1000 ∧ minimum_of = 3 ∧
    (∀ sample : ℕ → ℚ,
      profile_func_call sample
        = min (min (sample 0) (sample 1)) (sample 2)
            / cpu_frequency * 1000000000 / (loopsize : ℚ)) ∧
    (∀ c : ℚ, profile_func_call (fun _ => (loopsize : ℚ) * c)
        = c / cpu_frequency * 1000000000) := by
  have hmeas : ∀ sample : ℕ → ℚ,
      stopwatch_measure sample minimum_of
        = min (min (sample 0) (sample 1)) (sample 2) := by
    intro sample
    show ((List.range 3).map sample).foldl min (sample 0) = _
    rw [show List.range 3 = [0, 1, 2] from rfl]
    simp [min_self]
  refine ⟨rfl, rfl, ?_, ?_⟩
  · intro sample
    rw [profile_func_call, hmeas]
  · intro c
    rw [profile_func_call, hmeas]
    have hf : cpu_frequency ≠ 0 := by norm_num [cpu_frequency]
    simp only [min_self, loopsize, Nat.cast_ofNat]
    field_simp
    ring

/-- The one-step unfolding of recursive_func with positive fuel. -/
theorem recursive_func_succ (fuel n : ℕ) :
    recursive_func (fuel + 1) n =
      (if 0 < (n + (2 ^ 16 - 1)) % 2 ^ 16 then
        match recursive_func fuel ((n + (2 ^ 16 - 1)) % 2 ^ 16) with
        | none => none
        | some (calls, dummies) => some (calls + 1, dummies + 1)
      else some (1, 0)) := rfl

/-- For arguments between 1 and 65535, recursive_func with fuel at least the
argument performs exactly n invocations in total and constructs exactly
n - 1 dummy objects. -/
theorem recursive_func_ok :
    ∀ n : ℕ, 1 ≤ n → n ≤ 65535 → ∀ fuel : ℕ, n ≤ fuel →
      recursive_func fuel n = some (n, n - 1) := by
  intro n
  induction n using Nat.strong_induction_on with
  | _ n ih =>
      intro h1 h2 fuel hf
      cases fuel with
      | zero => omega
      | succ f =>
          by_cases hn1 : n = 1
          · subst hn1
            simp only [recursive_func]
            norm_num
          · have h3 : 2 ≤ n := by omega
            have hdec : (n + (2 ^ 16 - 1)) % 2 ^ 16 = n - 1 := by omega
            have hrec := ih (n - 1) (by omega) (by omega) (by omega) f (by omega)
            simp only [recursive_func, hdec]
            rw [if_pos (by omega : 0 < n - 1), hrec]
            have e1 : n - 1 + 1 = n := by omega
            have e2 : n - 1 - 1 + 1 = n - 1 := by omega
            show some (n - 1 + 1, n - 1 - 1 + 1) = some (n, n - 1)
            rw [e1, e2]

/-- C10: recursive_func takes its depth as an unsigned short and
pre-decrements it (modulo 2 to the 16th) before comparing with zero: called
with any 1 ≤ n ≤ 65535 it performs exactly n invocations in total (with
n - 1 dummy constructions); called with 0 the decrement wraps to 65535, so
instead of returning immediately it performs 65535 further invocations —
65536 in total — each further call preceded by a dummy construction. -/
theorem c10_recursive_func_wraparound :
    (∀ n : ℕ, 1 ≤ n → n ≤ 65535 →
      recursive_func 65536 n = some (n, n - 1)) ∧
    recursive_func 65536 0 = some (65536, 65535) := by
  constructor
  · intro n h1 h2
    exact recursive_func_ok n h1 h2 65536 (by omega)
  · have h := recursive_func_ok 65535 (by norm_num) (by norm_num) 65535 le_rfl
    show recursive_func (65535 + 1) 0 = some (65536, 65535)
    rw [recursive_func_succ]
    have hd : ((0:ℕ) + (2 ^ 16 - 1)) % 2 ^ 16 = 65535 := by norm_num
    rw [hd, if_pos (by norm_num : (0:ℕ) < 65535), h]

/-- C10 witness: the wrap-around theorem applied at depth 3. -/
theorem c10_recursive_func_wraparound_witness :
    recursive_func 65536 3 = some (3, 2) :=
  c10_recursive_func_wraparound.1 3 (by norm_num) (by norm_num)

/-- C1 counterexample: for the single trial (0, 4) — noexcept duration zero,
implicit duration 4 — noexcept wins the trial, the duration sums are 0 and 4,
and the reported ratio implicit over noexcept is divide_by_positive 4 0: with
the denorm_min substitution the IEEE binary64 quotient 4 / denorm_min
overflows to positive infinity, not to a large finite number. -/
theorem c1_counterexample :
    (runTrials [⟨0, 4⟩]).number_of_times_noexcept_is_faster = 1 ∧
    (runTrials [⟨0, 4⟩]).sum_of_durations_noexcept = 0 ∧
    (runTrials [⟨0, 4⟩]).sum_of_durations_implicit = 4 ∧
    divide_by_positive_ieee 4 0 = double_val.posInf := by
  refine ⟨by decide, ?_, ?_, ?_⟩
  · norm_num [runTrials, update_test_result, test_result_tmpl_init, omin]
  · norm_num [runTrials, update_test_result, test_result_tmpl_init, omin]
  · have hy : ¬ ((0:ℚ) < 0) := by norm_num
    have h : overflow_threshold ≤ (4:ℚ) / denorm_min := by
      rw [overflow_threshold, denorm_min, div_div_eq_mul_div, div_one]
      norm_num
    simp [divide_by_positive_ieee, fdiv_pos, hy, h]

/-- C1 (amended): for every finite x ≥ 0 and every y ≤ 0, divide_by_positive
substitutes denorm_min — which is strictly positive, so no division by zero
and no fault ever occurs — for the denominator, and the result is the IEEE
binary64 division of x by denorm_min: zero when x = 0, but overflowing to
positive infinity (not a large finite number) for every x of at least
overflow_threshold * denorm_min, which is about 8.9e-16 — in particular for
the trial (0.0, 4.0), whose reported implicit/noexcept ratio is
divide_by_positive of 4 and 0, the result is positive infinity. -/
theorem c1_divide_by_positive_nonpos :
    0 < denorm_min ∧
    ∀ (x y : ℚ), y ≤ 0 →
      divide_by_positive_ieee x y = fdiv_pos x denorm_min ∧
      (x = 0 → divide_by_positive_ieee x y = double_val.fin 0) ∧
      (overflow_threshold * denorm_min ≤ x →
        divide_by_positive_ieee x y = double_val.posInf) := by
  have hdm : 0 < denorm_min := by norm_num [denorm_min]
  refine ⟨hdm, ?_⟩
  intro x y hy
  have hsub : divide_by_positive_ieee x y = fdiv_pos x denorm_min := by
    rw [divide_by_positive_ieee, if_neg (not_lt.mpr hy)]
  refine ⟨hsub, ?_, ?_⟩
  · intro hx
    subst hx
    rw [hsub, fdiv_pos]
    simp only [zero_div]
    rw [if_neg (by norm_num [overflow_threshold])]
    norm_num [roundBinary64]
  · intro hx
    rw [hsub, fdiv_pos, if_pos ((le_div_iff₀ hdm).mpr hx)]

/-- C1 witness: the amended theorem instantiated at the arguments arising
from the (0, 4) trial: numerator 0 (the zero case) and numerator 4 (the
overflow case), denominator 0 in both. -/
theorem c1_divide_by_positive_nonpos_witness :
    divide_by_positive_ieee 0 0 = double_val.fin 0 ∧
    divide_by_positive_ieee 4 0 = double_val.posInf :=
  ⟨(c1_divide_by_positive_nonpos.2 0 0 le_rfl).2.1 rfl,
   (c1_divide_by_positive_nonpos.2 4 0 le_rfl).2.2 (by
      rw [overflow_threshold, denorm_min]
      norm_num)⟩
